import Mathlib

/-!
Verification of the rules engine in backend/app/core/rules_engine.py.

The engine is shallowly embedded: text is a list of characters, the
compiled regular expressions of the source are embedded as values of a
small pattern type Rx whose boolean matching semantics coincides with
the backtracking search semantics of the patterns used by the source
(alternations of literals and character classes, star over a character
class, optional suffix, and trigger-followed-by-negative-lookahead
shapes).  Case-insensitive matching folds ASCII letters; whitespace
classes are the ASCII whitespace characters.  Machine strings are
List Char; a missing (None) text argument is modelled with Option.
-/

/-- ASCII lower-casing on code points: an upper-case letter code is
shifted into the lower-case range, everything else is unchanged. -/
def lcN (n : Nat) : Nat := if 65 ≤ n ∧ n ≤ 90 then n + 32 else n

/-- Case-insensitive character comparison, as performed by the
re.IGNORECASE flag of the source patterns (ASCII folding). -/
def chEq (a b : Char) : Bool := lcN a.toNat == lcN b.toNat

/-- The whitespace class of the patterns (regex class backslash-s),
restricted to ASCII whitespace. -/
def sp (c : Char) : Bool :=
  c.toNat == 32 || c.toNat == 9 || c.toNat == 10 || c.toNat == 13 ||
  c.toNat == 11 || c.toNat == 12

/-- The digit class of the patterns (regex class backslash-d). -/
def isDigitB (c : Char) : Bool := 48 ≤ c.toNat && c.toNat ≤ 57

/-- The dot of the patterns: any character except a newline. -/
def dotC (c : Char) : Bool := !(c.toNat == 10)

/-- The class of a dash or a space, written as a bracket class in the
market-based and location-based qualifiers. -/
def dashSp (c : Char) : Bool := c.toNat == 45 || c.toNat == 32

/-- Case-insensitive prefix test: the first argument (the pattern
literal) is a prefix of the second up to ASCII case folding. -/
def ciPref : List Char → List Char → Bool
  | [], _ => true
  | _ :: _, [] => false
  | w :: ws, c :: cs => chEq w c && ciPref ws cs

/-- The pattern shapes used by the source regular expressions. -/
inductive Rx where
  | eps
  | lit (w : List Char)
  | cls (p : Char → Bool)
  | alt (a b : Rx)
  | cat (a b : Rx)
  | star (p : Char → Bool)
  | opt (a : Rx)

/-- All suffixes reachable from a list by consuming a (possibly empty)
prefix of characters satisfying p: the candidate continuations of a
starred character class. -/
def starSufs (p : Char → Bool) : List Char → List (List Char)
  | [] => [[]]
  | c :: cs => (c :: cs) :: (if p c then starSufs p cs else [])

/-- All suffixes left over after matching the pattern at the head of
the list: the possible end positions a backtracking engine explores. -/
def ends : Rx → List Char → List (List Char)
  | .eps, cs => [cs]
  | .lit w, cs => if ciPref w cs then [cs.drop w.length] else []
  | .cls _, [] => []
  | .cls p, c :: cs => if p c then [cs] else []
  | .alt a b, cs => ends a cs ++ ends b cs
  | .cat a b, cs => (ends a cs).flatMap (fun r => ends b r)
  | .star p, cs => starSufs p cs
  | .opt a, cs => cs :: ends a cs

/-- The pattern matches starting exactly at the head of the list. -/
def matchesHere (r : Rx) (cs : List Char) : Bool := !(ends r cs).isEmpty

/-- Generic search over all start positions of a string, mirroring how
re.search tries every position from the left. -/
def searchP (f : List Char → Bool) : List Char → Bool
  | [] => f []
  | l@(_ :: cs) => f l || searchP f cs

/-- re.search of a pattern in a string: does it match at any position. -/
def search (r : Rx) (s : List Char) : Bool := searchP (matchesHere r) s

/-- Search for the pattern after a dot-star: the pattern must match at
some position reachable without crossing a newline (the dot of the
lookahead bodies does not match a newline). -/
def dotStarSearch (r : Rx) : List Char → Bool
  | [] => matchesHere r []
  | l@(c :: cs) => matchesHere r l || (dotC c && dotStarSearch r cs)

/-- A compiled rule pattern: either a plain pattern, or a trigger
followed by a negative lookahead of dot-star and a qualifier, the shape
TRIGGER(?!.*QUALIFIER) used by the source. -/
inductive RulePat where
  | plain (r : Rx)
  | withNeg (trig qual : Rx)

/-- Whether a compiled rule pattern matches a sentence, with the
backtracking semantics of re.search: a lookahead-negated rule fires
when some occurrence of the trigger is not followed (newline-free) by
any occurrence of the qualifier. -/
def ruleFires : RulePat → List Char → Bool
  | .plain r, s => search r s
  | .withNeg t q, s =>
      searchP (fun cs => (ends t cs).any (fun rest => ! dotStarSearch q rest)) s

/-- Builds a literal pattern from a string. -/
def rlit (s : String) : Rx := .lit s.data

/-- VAGUE_VERBS of the source: hedging and aspirational verbs. -/
def VAGUE_VERBS : Rx :=
  .alt (rlit ("aim")) (.alt (rlit ("seek")) (.alt (rlit ("strive"))
    (.alt (rlit ("endeavor")) (.alt (rlit ("commit")) (.alt (rlit ("pledge"))
      (.alt (rlit ("work towards")) (.alt (rlit ("aspire"))
        (.alt (rlit ("intend")) (rlit ("plan to"))))))))))

/-- TARGET_WORDS of the source. -/
def TARGET_WORDS : Rx :=
  .alt (rlit ("target")) (.alt (rlit ("goal"))
    (.alt (rlit ("objective")) (rlit ("commitment"))))

/-- A four-digit year beginning with 20. -/
def YEAR4 : Rx := .cat (rlit ("20")) (.cat (.cls isDigitB) (.cls isDigitB))

/-- YEAR_OR_BASELINE of the source: year, baseline, base year,
reference year, or from-year phrase. -/
def YEAR_OR_BASELINE : Rx :=
  .alt YEAR4 (.alt (rlit ("baseline"))
    (.alt (.cat (rlit ("base")) (.cat (.star sp) (rlit ("year"))))
      (.alt (.cat (rlit ("reference")) (.cat (.star sp) (rlit ("year"))))
        (.cat (rlit ("from")) (.cat (.star sp) YEAR4)))))

/-- SCOPE2_AMBIG of the source. -/
def SCOPE2_AMBIG : Rx :=
  .alt (rlit ("renewable electricity")) (rlit ("green electricity"))

/-- SCOPE2_QUAL of the source. -/
def SCOPE2_QUAL : Rx :=
  .alt (.cat (rlit ("market")) (.cat (.cls dashSp) (rlit ("based"))))
    (.alt (.cat (rlit ("location")) (.cat (.cls dashSp) (rlit ("based"))))
      (.alt (rlit ("dual reporting")) (.alt (rlit ("residual mix"))
        (.alt (rlit ("REC")) (.alt (rlit ("GO"))
          (.alt (rlit ("guarantee of origin"))
            (.alt (rlit ("retire")) (rlit ("cancel")))))))))

/-- AVOIDED_EMISSIONS of the source. -/
def AVOIDED_EMISSIONS : Rx :=
  .alt (rlit ("avoided emissions")) (rlit ("enabled emissions"))

/-- The qualifier of rule 303: separate, disclose or outside inventory. -/
def AVOIDED_QUAL : Rx :=
  .alt (rlit ("separate")) (.alt (rlit ("disclose"))
    (.cat (rlit ("outside")) (.cat (.cat (.cls sp) (.star sp)) (rlit ("inventory")))))

/-- The pattern of rule 202: only scope 1/2, or scope 3
excluded/later/deferred. -/
def CHERRY : Rx :=
  .alt
    (.cat (rlit ("only")) (.cat (.cat (.cls sp) (.star sp))
      (.cat (rlit ("scope")) (.cat (.star sp)
        (.cat (rlit ("1")) (.cat (.star sp)
          (.cat (rlit ("/")) (.cat (.star sp) (rlit ("2"))))))))))
    (.cat (rlit ("scope")) (.cat (.star sp)
      (.cat (rlit ("3")) (.cat (.star sp)
        (.alt (rlit ("excluded")) (.alt (rlit ("later")) (rlit ("deferred"))))))))

/-- NEUTRAL_OFFSET of the source: a neutrality claim linked through
via/through/using to offsets or credits. -/
def NEUTRAL_OFFSET : Rx :=
  .cat (.alt (rlit ("carbon neutral")) (rlit ("climate neutral")))
    (.cat (.star dotC)
      (.cat (.alt (rlit ("via")) (.alt (rlit ("through")) (rlit ("using"))))
        (.cat (.star dotC)
          (.cat (.alt (rlit ("offset")) (rlit ("credit"))) (.opt (rlit ("s")))))))

/-- THIRD_PARTY_STD of the source: the recognized third-party
verification standards. -/
def THIRD_PARTY_STD : Rx :=
  .alt (.cat (rlit ("PAS")) (.cat (.star sp) (rlit ("2060"))))
    (.alt (rlit ("Verra"))
      (.alt (.cat (rlit ("Gold")) (.cat (.star sp) (rlit ("Standard"))))
        (.alt (rlit ("ICROA"))
          (.alt (.cat (rlit ("ISAE")) (.cat (.star sp) (rlit ("3000"))))
            (rlit ("AA1000"))))))

/-- The rule of id 102: target words with a negative lookahead for
year or baseline phrases. -/
def rule102 : RulePat := .withNeg TARGET_WORDS YEAR_OR_BASELINE

/-- The rule table of the source (category, compiled pattern, id), in
source order. -/
def RULES : List (String × RulePat × Nat) :=
  [("vague", .plain VAGUE_VERBS, 901),
   ("lack_metrics", rule102, 102),
   ("misleading", .withNeg SCOPE2_AMBIG SCOPE2_QUAL, 402),
   ("misleading", .withNeg AVOIDED_EMISSIONS AVOIDED_QUAL, 303),
   ("cherry", .plain CHERRY, 202),
   ("no_3rd", .withNeg NEUTRAL_OFFSET THIRD_PARTY_STD, 302)]

/-- One match instance, as in the RuleHit TypedDict of the source. -/
structure RuleHit where
  cat : String
  rule_id : Nat
  text : List Char
  sent_idx : Nat
deriving DecidableEq

/-- The output envelope, as in the RuleScanResult TypedDict. -/
structure RuleScanResult where
  hits : List RuleHit
  notes : String
deriving DecidableEq

/-- A space or a horizontal tab, the class collapsed by the
normalizer. -/
def isHT (c : Char) : Bool := c.toNat == 32 || c.toNat == 9

/-- Replaces a non-breaking space (code 160) by an ordinary space. -/
def nbspFix (c : Char) : Char := if c.toNat == 160 then ' ' else c

/-- The worker of the whitespace collapsing substitution: the flag
records whether the scan stands inside a run of spaces and tabs whose
replacement space has already been emitted. -/
def collapseF (inRun : Bool) : List Char → List Char
  | [] => []
  | c :: cs =>
    if isHT c then
      if inRun then collapseF true cs else ' ' :: collapseF true cs
    else c :: collapseF false cs

/-- Collapses every maximal run of spaces and tabs into one space, as
the substitution of the normalizer does. -/
def collapse (l : List Char) : List Char := collapseF false l

/-- Strips leading and trailing whitespace, as str.strip does. -/
def pstrip (l : List Char) : List Char :=
  ((l.dropWhile sp).reverse.dropWhile sp).reverse

/-- The normalizer of the source (its name there is normalize, which
Mathlib already takes): a falsy (missing or empty) text is the empty
string; otherwise non-breaking spaces are replaced, runs of spaces and
tabs collapsed, and the ends stripped. -/
def normalizeText (text : Option (List Char)) : List Char :=
  match text with
  | none => []
  | some t => if t = [] then [] else pstrip (collapse (t.map nbspFix))

/-- A sentence-terminal punctuation mark: period, question mark or
exclamation mark. -/
def isTermP (c : Char) : Bool := c.toNat == 46 || c.toNat == 63 || c.toNat == 33

/-- The scanning state of the sentence splitter: either ordinary
scanning (carrying the reversed accumulator of the current fragment
and the character just before the scan position), or consuming the
remainder of a whitespace-run delimiter, or of a newline-run
delimiter. -/
inductive SplSt where
  | norm (cur : List Char) (prev : Option Char)
  | skipS
  | skipN

/-- The splitting scan of the sentence splitter regular expression:
a delimiter is either a whitespace run following a terminal
punctuation mark (matched by a lookbehind, so the mark is kept), or a
run of newlines; matches are found left to right and removed.  A
character ending a delimiter run can itself start neither delimiter
branch (it is not whitespace after a whitespace run, and the character
before it is not terminal punctuation), so the scan resumes by
accumulating it. -/
def splitAux : SplSt → List Char → List (List Char)
  | .norm cur _, [] => [cur.reverse]
  | .skipS, [] => [[]]
  | .skipN, [] => [[]]
  | .norm cur prev, c :: cs =>
    if (match prev with | some q => isTermP q | none => false) && sp c then
      cur.reverse :: splitAux .skipS cs
    else if c.toNat == 10 then
      cur.reverse :: splitAux .skipN cs
    else
      splitAux (.norm (c :: cur) (some c)) cs
  | .skipS, c :: cs =>
    if sp c then splitAux .skipS cs else splitAux (.norm [c] (some c)) cs
  | .skipN, c :: cs =>
    if c.toNat == 10 then splitAux .skipN cs
    else splitAux (.norm [c] (some c)) cs

/-- The sentence splitter of the source: normalize, split on the
delimiter pattern, strip each fragment and drop the empty ones. -/
def split_sentences (text : Option (List Char)) : List (List Char) :=
  if normalizeText text = [] then []
  else (splitAux (.norm [] none) (normalizeText text)).filterMap
    (fun p => if pstrip p = [] then none else some (pstrip p))

/-- The body of the inner loop of scan for one rule of the table: a
rule of category no_3rd is skipped when the sentence mentions a
recognized third-party standard (the whitelist of the source, computed
per sentence); otherwise a match produces a hit carrying the sentence
truncated to 400 characters and the sentence index. -/
def ruleToHit (sent : List Char) (i : Nat) (r : String × RulePat × Nat) :
    Option RuleHit :=
  if r.1 == "no_3rd" && search THIRD_PARTY_STD sent then none
  else if ruleFires r.2.1 sent then
    some { cat := r.1, rule_id := r.2.2, text := sent.take 400, sent_idx := i }
  else none

/-- The per-sentence inner loop of scan: every rule of the table is
tried in source order. -/
def hitsForSentence (sent : List Char) (i : Nat) : List RuleHit :=
  RULES.filterMap (ruleToHit sent i)

/-- The outer loop of scan: sentences are processed in order with
their enumeration index. -/
def scanHits (i : Nat) : List (List Char) → List RuleHit
  | [] => []
  | s :: ss => hitsForSentence s i ++ scanHits (i + 1) ss

/-- The public scan entry point of the source.  The company argument
is accepted and ignored, exactly as in the source. -/
def scan (text : Option (List Char)) (_company : Option (List Char) := none) :
    RuleScanResult :=
  let sents := split_sentences text
  let hits := scanHits 0 sents
  { hits := hits,
    notes := "sentences=" ++ toString sents.length ++ "; hits=" ++
      toString hits.length ++ "; whitelist_in_sent=third_party" }

/-- One entry of the legacy breakdown list. -/
structure BreakdownItem where
  type : String
  value : Float

/-- The radar dictionary of the legacy stub. -/
structure LegacyRadar where
  vague : Nat
  lack_metrics : Nat
  misleading : Nat
  cherry : Nat
  no_3rd : Nat

/-- The nested overall_greenwashing_score dictionary. -/
structure OverallScore where
  score : Float

/-- The result shape of the legacy score stub. -/
structure LegacyScoreResult where
  radar : LegacyRadar
  overall : Float
  overall_greenwashing_score : OverallScore
  breakdown : List BreakdownItem
  engine : String

/-- The legacy score stub of the source: always zeros, with the
legacy-compatible fields, independent of the input text. -/
def score (_text : List Char) : LegacyScoreResult :=
  { radar := ⟨0, 0, 0, 0, 0⟩,
    overall := 0.0,
    overall_greenwashing_score := ⟨0.0⟩,
    breakdown :=
      [⟨"Vague or unsubstantiated claims", 0.0⟩,
       ⟨"Lack of specific metrics or targets", 0.0⟩,
       ⟨"Misleading terminology", 0.0⟩,
       ⟨"Cherry-picked data", 0.0⟩,
       ⟨"Absence of third-party verification", 0.0⟩],
    engine := "legacy-stub" }

/-! ### Specification-side definitions

The following definitions restate, in plain string terms, the
behaviour the specification ascribes to rule 102 and to the hit
ordering; they are compared with the embedded engine by the theorems
below. -/

/-- A four-digit year token beginning with 20 starts here. -/
def yearTokenAt (t : List Char) : Bool :=
  match t with
  | c1 :: c2 :: c3 :: c4 :: _ => chEq '2' c1 && chEq '0' c2 && isDigitB c3 && isDigitB c4
  | _ => false

/-- Some position of the list starts a year-like token, the word
baseline, a base-year or reference-year phrase (the word, optional
whitespace, then year or the digits), or a from-year phrase. -/
def yearOrBaselineAfter (r : List Char) : Bool :=
  (r.tails).any fun t =>
    yearTokenAt t
    || ciPref ("baseline".data) t
    || (ciPref ("base".data) t && ciPref ("year".data) ((t.drop 4).dropWhile sp))
    || (ciPref ("reference".data) t && ciPref ("year".data) ((t.drop 9).dropWhile sp))
    || (ciPref ("from".data) t && yearTokenAt ((t.drop 4).dropWhile sp))

/-- The specification of rule 102: a target, goal, objective or
commitment word occurs, and no year-like token, baseline reference or
reference-year phrase occurs at or after its end. -/
def lackMetricsSpec (s : List Char) : Bool :=
  (s.tails).any fun t =>
    [("target".data), ("goal".data), ("objective".data), ("commitment".data)].any
      fun w => ciPref w t && ! yearOrBaselineAfter (t.drop w.length)

/-- Case-insensitive substring containment. -/
def containsCI (w s : List Char) : Bool := (s.tails).any (ciPref w)

/-- The position of a rule id in the rule table (ids are stable, so
the table position is a function of the id). -/
def rulePos (rid : Nat) : Nat :=
  if rid = 901 then 0 else if rid = 102 then 1 else if rid = 402 then 2
  else if rid = 303 then 3 else if rid = 202 then 4 else if rid = 302 then 5
  else 6

/-- The strict lexicographic order on hits the specification promises:
sentence index first, then rule-table position. -/
def hitOrd (a b : RuleHit) : Prop :=
  a.sent_idx < b.sent_idx ∨
    (a.sent_idx = b.sent_idx ∧ rulePos a.rule_id < rulePos b.rule_id)

/-! ### Generic facts about the pattern engine -/

/-- Position search equals a search over all suffixes. -/
theorem searchP_eq_tails_any (f : List Char → Bool) (s : List Char) :
    searchP f s = (s.tails).any f := by
  induction s with
  | nil => simp [searchP]
  | cons c cs ih => simp [searchP, List.tails_cons, ih]

/-- A congruence rule for any. -/
theorem any_congr_mem {α : Type} {l : List α} {f g : α → Bool}
    (h : ∀ x ∈ l, f x = g x) : l.any f = l.any g := by
  induction l with
  | nil => rfl
  | cons a l ih =>
    simp only [List.any_cons, h a (by simp), ih (fun x hx => h x (by simp [hx]))]

/-- On newline-free text the dot-star search equals the plain search
over all suffixes. -/
theorem dotStarSearch_eq (r : Rx) (s : List Char) (h : ∀ c ∈ s, c.toNat ≠ 10) :
    dotStarSearch r s = (s.tails).any (matchesHere r) := by
  induction s with
  | nil => simp [dotStarSearch]
  | cons c cs ih =>
    have hc : dotC c = true := by
      have := h c (by simp)
      simp [dotC]
      omega
    simp [dotStarSearch, List.tails_cons, hc, ih (fun d hd => h d (by simp [hd]))]

/-- Emptiness of an appended list. -/
theorem isEmpty_app (l₁ l₂ : List (List Char)) :
    (l₁ ++ l₂).isEmpty = (l₁.isEmpty && l₂.isEmpty) := by
  cases l₁ <;> simp

/-- An alternation matches when either branch matches. -/
theorem matchesHere_alt (a b : Rx) (cs : List Char) :
    matchesHere (.alt a b) cs = (matchesHere a cs || matchesHere b cs) := by
  simp [matchesHere, ends, isEmpty_app]

/-- A literal matches exactly by the case-insensitive prefix test. -/
theorem matchesHere_lit (w cs : List Char) :
    matchesHere (.lit w) cs = ciPref w cs := by
  cases h : ciPref w cs <;> simp [matchesHere, ends, h]

/-- Any over the ends of a literal. -/
theorem ends_lit_any (w cs : List Char) (g : List Char → Bool) :
    (ends (.lit w) cs).any g = (ciPref w cs && g (cs.drop w.length)) := by
  cases h : ciPref w cs <;> simp [ends, h]

/-- Nonemptiness of a flat map. -/
theorem flatMap_not_isEmpty (g : List Char → List (List Char)) :
    ∀ l : List (List Char), (!((l.flatMap g).isEmpty)) = l.any (fun x => !(g x).isEmpty)
  | [] => by simp
  | x :: l => by
    simp only [List.flatMap_cons, isEmpty_app, List.any_cons, Bool.not_and,
      flatMap_not_isEmpty g l]

/-- A concatenation matches when the second part matches at some end
of the first. -/
theorem matchesHere_cat (a b : Rx) (cs : List Char) :
    matchesHere (.cat a b) cs = (ends a cs).any (matchesHere b) := by
  simp only [matchesHere, ends, flatMap_not_isEmpty]
  exact any_congr_mem (fun x _ => rfl)

/-- When the continuation rejects every list headed by a class
character, a starred class reduces to dropWhile. -/
theorem starSufs_any (p : Char → Bool) (f : List Char → Bool)
    (hp : ∀ c cs, p c = true → f (c :: cs) = false) :
    ∀ l, (starSufs p l).any f = f (l.dropWhile p)
  | [] => by simp [starSufs]
  | c :: cs => by
    cases h : p c
    · simp [starSufs, h]
    · simp [starSufs, h, hp c cs h, starSufs_any p f hp cs]

/-- Matching a literal, optional class padding, then a continuation. -/
theorem matchesHere_lit_star (w : List Char) (p : Char → Bool) (r : Rx)
    (hp : ∀ c cs, p c = true → matchesHere r (c :: cs) = false) (t : List Char) :
    matchesHere (.cat (.lit w) (.cat (.star p) r)) t =
      (ciPref w t && matchesHere r ((t.drop w.length).dropWhile p)) := by
  rw [matchesHere_cat, ends_lit_any]
  cases h : ciPref w t
  · simp
  · simp only [Bool.true_and]
    rw [matchesHere_cat]
    exact starSufs_any p (matchesHere r) hp _

/-! ### Character facts -/

/-- Case folding fixes the codes at or below 32. -/
theorem lcN_le_32 (n : Nat) (h : n ≤ 32) : lcN n = n := by
  unfold lcN
  split <;> omega

/-- The code points of the whitespace class. -/
theorem sp_vals (c : Char) (h : sp c = true) :
    c.toNat = 32 ∨ c.toNat = 9 ∨ c.toNat = 10 ∨ c.toNat = 13 ∨
      c.toNat = 11 ∨ c.toNat = 12 := by
  simp only [sp, Bool.or_eq_true, beq_iff_eq] at h
  tauto

/-- A whitespace character never case-insensitively equals a character
whose folded code exceeds 32 (a letter, digit or slash). -/
theorem chEq_sp_false (d c : Char) (hc : sp c = true) (hd : 32 < lcN d.toNat) :
    chEq d c = false := by
  have h1 := sp_vals c hc
  have h2 : lcN c.toNat ≤ 32 := by
    rcases h1 with h | h | h | h | h | h <;> rw [h, lcN_le_32] <;> omega
  simp only [chEq, beq_eq_false_iff_ne, ne_eq]
  omega

/-- The word year cannot start at a whitespace character. -/
theorem year_no_sp (c : Char) (cs : List Char) (hc : sp c = true) :
    matchesHere (.lit ("year".data)) (c :: cs) = false := by
  rw [matchesHere_lit]
  rw [show ("year".data) = 'y' :: ("ear".data) from rfl]
  simp [ciPref, chEq_sp_false 'y' c hc (by decide)]

/-- A year token cannot start at a whitespace character. -/
theorem yearTokenAt_sp (c : Char) (cs : List Char) (hc : sp c = true) :
    yearTokenAt (c :: cs) = false := by
  rcases cs with _ | ⟨c2, _ | ⟨c3, _ | ⟨c4, r⟩⟩⟩ <;>
    simp [yearTokenAt, chEq_sp_false '2' c hc (by decide)]

/-- The embedded year pattern recognizes exactly the year tokens. -/
theorem mh_YEAR4 (t : List Char) : matchesHere YEAR4 t = yearTokenAt t := by
  unfold YEAR4 rlit
  rw [matchesHere_cat, ends_lit_any]
  rcases t with _ | ⟨c1, _ | ⟨c2, _ | ⟨c3, _ | ⟨c4, r⟩⟩⟩⟩
  · simp [ciPref, yearTokenAt]
  · simp [ciPref, yearTokenAt]
  · simp [ciPref, yearTokenAt, ends, matchesHere]
  · cases hd3 : isDigitB c3 <;>
      simp [ciPref, yearTokenAt, ends, matchesHere, hd3]
  · cases hd3 : isDigitB c3 <;> cases hd4 : isDigitB c4 <;>
      simp [ciPref, yearTokenAt, ends, matchesHere, hd3, hd4, Bool.and_assoc]

/-- A year pattern cannot match starting at a whitespace character. -/
theorem year4_no_sp (c : Char) (cs : List Char) (hc : sp c = true) :
    matchesHere YEAR4 (c :: cs) = false := by
  rw [mh_YEAR4]
  exact yearTokenAt_sp c cs hc

/-- The embedded year-or-baseline pattern matches here exactly as the
specification-side predicate describes. -/
theorem mh_YOB (t : List Char) :
    matchesHere YEAR_OR_BASELINE t =
      (yearTokenAt t
        || ciPref ("baseline".data) t
        || (ciPref ("base".data) t && ciPref ("year".data) ((t.drop 4).dropWhile sp))
        || (ciPref ("reference".data) t && ciPref ("year".data) ((t.drop 9).dropWhile sp))
        || (ciPref ("from".data) t && yearTokenAt ((t.drop 4).dropWhile sp))) := by
  have hpY : ∀ c cs, sp c = true → matchesHere (.lit ("year".data)) (c :: cs) = false :=
    fun c cs hc => year_no_sp c cs hc
  have hpY4 : ∀ c cs, sp c = true → matchesHere YEAR4 (c :: cs) = false :=
    fun c cs hc => year4_no_sp c cs hc
  have hbase := matchesHere_lit_star ("base".data) sp (.lit ("year".data)) hpY t
  have href := matchesHere_lit_star ("reference".data) sp (.lit ("year".data)) hpY t
  have hfrom := matchesHere_lit_star ("from".data) sp YEAR4 hpY4 t
  simp only [YEAR_OR_BASELINE, rlit, matchesHere_alt, mh_YEAR4, matchesHere_lit,
    hbase, href, hfrom, matchesHere_lit, mh_YEAR4,
    show ("base".data).length = 4 from rfl,
    show ("reference".data).length = 9 from rfl,
    show ("from".data).length = 4 from rfl, Bool.or_assoc]

/-- On newline-free text, searching for year-or-baseline after a
dot-star is the specification-side predicate. -/
theorem dss_YOB (r : List Char) (h : ∀ c ∈ r, c.toNat ≠ 10) :
    dotStarSearch YEAR_OR_BASELINE r = yearOrBaselineAfter r := by
  rw [dotStarSearch_eq _ _ h]
  unfold yearOrBaselineAfter
  exact any_congr_mem (fun t _ => mh_YOB t)

/-- Rule 102 fires on a newline-free sentence exactly as the
specification describes: some target word occurs with no subsequent
year-like token, baseline reference or reference-year phrase. -/
theorem rule102_eq_spec (s : List Char) (h : ∀ c ∈ s, c.toNat ≠ 10) :
    ruleFires rule102 s = lackMetricsSpec s := by
  have hsub : ∀ t : List Char, t ∈ s.tails → ∀ n : Nat, ∀ c ∈ t.drop n, c.toNat ≠ 10 := by
    intro t ht n c hc
    exact h c (((List.mem_tails _ _).mp ht).sublist.subset
      ((List.drop_sublist n t).subset hc))
  show searchP _ s = _
  rw [searchP_eq_tails_any]
  unfold lackMetricsSpec
  apply any_congr_mem
  intro t ht
  have e1 := dss_YOB (t.drop (("target".data).length)) (hsub t ht _)
  have e2 := dss_YOB (t.drop (("goal".data).length)) (hsub t ht _)
  have e3 := dss_YOB (t.drop (("objective".data).length)) (hsub t ht _)
  have e4 := dss_YOB (t.drop (("commitment".data).length)) (hsub t ht _)
  simp only [TARGET_WORDS, rlit, show ∀ a b cs, ends (.alt a b) cs = ends a cs ++ ends b cs
      from fun _ _ _ => rfl,
    List.any_append, ends_lit_any, e1, e2, e3, e4, List.any_cons, List.any_nil,
    Bool.or_false]

/-- Claim C3: scan of We are carbon neutral through offsets. returns
exactly one hit, of category no_3rd, rule id 302, sentence index 0;
and scan of the same sentence with verified under PAS 2060 added
returns zero hits. -/
theorem C3_no3rd_scenario :
    scan (some ("We are carbon neutral through offsets.".data)) none =
      { hits := [{ cat := "no_3rd", rule_id := 302,
                   text := "We are carbon neutral through offsets.".data,
                   sent_idx := 0 }],
        notes := "sentences=1; hits=1; whitelist_in_sent=third_party" }
    ∧ scan
        (some ("We are carbon neutral through offsets verified under PAS 2060.".data))
        none =
      { hits := [],
        notes := "sentences=1; hits=0; whitelist_in_sent=third_party" } :=
  ⟨by decide, by decide⟩

/-- Claim C5: the company argument has no effect on the result of
scan, for every text and every pair of company values. -/
theorem C5_company_ignored (t c₁ c₂ : Option (List Char)) :
    scan t c₁ = scan t c₂ := rfl

/-- Claim C6: scan is a total function of its input (it is defined on
every text, including a missing one), and both a missing text and the
empty string yield a result with an empty hits list. -/
theorem C6_total_empty :
    (∀ c : Option (List Char), (scan none c).hits = [])
    ∧ (∀ c : Option (List Char), (scan (some []) c).hits = [])
    ∧ (∀ c : Option (List Char), scan none c = scan (some []) c) :=
  ⟨fun _ => rfl, fun _ => rfl, fun _ => rfl⟩

/-- Claim C9: score returns the same all-zero result regardless of
input, with a zero breakdown for each of the five categories, an
all-zero radar, overall zero, and the literal engine marker
legacy-stub. -/
theorem C9_score_stub (t₁ t₂ : List Char) :
    score t₁ = score t₂
    ∧ (score t₁).engine = "legacy-stub"
    ∧ (score t₁).overall = 0.0
    ∧ (score t₁).overall_greenwashing_score.score = 0.0
    ∧ (score t₁).radar = ⟨0, 0, 0, 0, 0⟩
    ∧ (score t₁).breakdown =
        [⟨"Vague or unsubstantiated claims", 0.0⟩,
         ⟨"Lack of specific metrics or targets", 0.0⟩,
         ⟨"Misleading terminology", 0.0⟩,
         ⟨"Cherry-picked data", 0.0⟩,
         ⟨"Absence of third-party verification", 0.0⟩] :=
  ⟨rfl, rfl, rfl, rfl, rfl, rfl⟩

/-! ### Structure of the scan result -/

/-- What a produced hit looks like: category and id come from the
rule, the text is the truncated sentence, the index is the sentence
index, and the whitelist condition was false. -/
theorem ruleToHit_some {sent : List Char} {i : Nat} {r : String × RulePat × Nat}
    {h : RuleHit} (hf : ruleToHit sent i r = some h) :
    h.cat = r.1 ∧ h.rule_id = r.2.2 ∧ h.text = sent.take 400 ∧ h.sent_idx = i ∧
      (r.1 == "no_3rd" && search THIRD_PARTY_STD sent) = false := by
  unfold ruleToHit at hf
  split at hf
  · exact absurd hf (by simp)
  · rename_i hcond
    split at hf
    · have hh := Option.some.inj hf
      subst hh
      exact ⟨rfl, rfl, rfl, rfl, Bool.eq_false_iff.mpr hcond⟩
    · exact absurd hf (by simp)

/-- Membership in the per-sentence hits comes from some rule of the
table. -/
theorem hitsForSentence_mem {sent : List Char} {i : Nat} {h : RuleHit}
    (hm : h ∈ hitsForSentence sent i) :
    ∃ r ∈ RULES, ruleToHit sent i r = some h := by
  simpa [hitsForSentence, List.mem_filterMap] using hm

/-- Hits of a sentence carry that sentence index. -/
theorem hfs_sentIdx {sent : List Char} {i : Nat} {h : RuleHit}
    (hm : h ∈ hitsForSentence sent i) : h.sent_idx = i := by
  obtain ⟨r, _, hf⟩ := hitsForSentence_mem hm
  exact (ruleToHit_some hf).2.2.2.1

/-- Hits of a sentence carry the truncated sentence text. -/
theorem hfs_text {sent : List Char} {i : Nat} {h : RuleHit}
    (hm : h ∈ hitsForSentence sent i) : h.text = sent.take 400 := by
  obtain ⟨r, _, hf⟩ := hitsForSentence_mem hm
  exact (ruleToHit_some hf).2.2.1

/-- Every hit of the outer loop comes from the sentence at an offset
position, and records that position. -/
theorem scanHits_mem {h : RuleHit} :
    ∀ {ss : List (List Char)} {i : Nat}, h ∈ scanHits i ss →
      ∃ j sent, ss.get? j = some sent ∧ h.sent_idx = i + j ∧
        h ∈ hitsForSentence sent (i + j) := by
  intro ss
  induction ss with
  | nil =>
    intro i hm
    simp [scanHits] at hm
  | cons s ss ih =>
    intro i hm
    rw [scanHits] at hm
    rcases List.mem_append.mp hm with h1 | h2
    · exact ⟨0, s, rfl, by simpa using hfs_sentIdx h1, by simpa using h1⟩
    · obtain ⟨j, sent, hg, hidx, hmem⟩ := ih h2
      refine ⟨j + 1, sent, by simpa using hg, by omega, ?_⟩
      have heq : i + (j + 1) = i + 1 + j := by omega
      rw [heq]
      exact hmem

/-- Claim C8: every hit of scan carries a sentence index that is a
valid zero-based index into the sentence sequence of the input. -/
theorem C8_sentIdx_valid (text c : Option (List Char)) :
    ((scan text c).hits).all
      (fun h => decide (h.sent_idx < (split_sentences text).length)) = true := by
  rw [List.all_eq_true]
  intro h hm
  have hm' : h ∈ scanHits 0 (split_sentences text) := hm
  obtain ⟨j, sent, hg, hidx, _⟩ := scanHits_mem hm'
  obtain ⟨hj, _⟩ := List.get?_eq_some.mp hg
  simp only [decide_eq_true_eq]
  omega

/-- Claim C7: every hit text is the sentence at its index truncated to
at most 400 characters. -/
theorem C7_text_trunc (text c : Option (List Char)) :
    ((scan text c).hits).all
      (fun h => decide (h.text.length ≤ 400) &&
        ((split_sentences text).get? h.sent_idx).any
          (fun sent => h.text == sent.take 400)) = true := by
  rw [List.all_eq_true]
  intro h hm
  have hm' : h ∈ scanHits 0 (split_sentences text) := hm
  obtain ⟨j, sent, hg, hidx, hmem⟩ := scanHits_mem hm'
  have htext : h.text = sent.take 400 := hfs_text hmem
  have hidx0 : h.sent_idx = j := by omega
  rw [hidx0, hg]
  simp [htext, List.length_take]

/-- The case-insensitive prefix test splits over an appended pattern. -/
theorem ciPref_append (a b t : List Char) :
    ciPref (a ++ b) t = (ciPref a t && ciPref b (t.drop a.length)) := by
  induction a generalizing t with
  | nil => simp [ciPref]
  | cons w ws ih =>
    cases t with
    | nil => simp [ciPref]
    | cons c cs => simp [ciPref, ih, Bool.and_assoc]

/-- Only a space is case-insensitively equal to a space. -/
theorem chEq_space_sp (c : Char) (h : chEq ' ' c = true) : sp c = true := by
  simp only [chEq, beq_iff_eq] at h
  rw [show lcN (' '.toNat) = 32 from rfl] at h
  have h32 : c.toNat = 32 := by
    unfold lcN at h
    revert h
    split <;> omega
  simp [sp, h32]

/-- The starred-class continuations always lead with the whole list. -/
theorem starSufs_head (p : Char → Bool) (l : List Char) : l ∈ starSufs p l := by
  cases l <;> simp [starSufs]

/-- A sentence containing the words Gold Standard matches the
third-party standards pattern. -/
theorem contains_gs_search (sent : List Char)
    (h : containsCI ("Gold Standard".data) sent = true) :
    search THIRD_PARTY_STD sent = true := by
  unfold containsCI at h
  rw [List.any_eq_true] at h
  obtain ⟨t, ht, hp⟩ := h
  unfold search
  rw [searchP_eq_tails_any, List.any_eq_true]
  refine ⟨t, ht, ?_⟩
  rw [show ("Gold Standard".data) = ("Gold".data) ++ (' ' :: ("Standard".data)) from rfl,
    ciPref_append, Bool.and_eq_true] at hp
  obtain ⟨hp1, hp2⟩ := hp
  have hgold : matchesHere
      (.cat (.lit ("Gold".data)) (.cat (.star sp) (.lit ("Standard".data)))) t = true := by
    rw [matchesHere_cat, ends_lit_any, hp1, Bool.true_and]
    rw [matchesHere_cat]
    cases hd : t.drop (("Gold".data).length) with
    | nil => rw [hd] at hp2; simp [ciPref] at hp2
    | cons c rest =>
      rw [hd] at hp2
      simp only [ciPref, Bool.and_eq_true] at hp2
      obtain ⟨hc, hrest⟩ := hp2
      have hsp : sp c = true := chEq_space_sp c hc
      rw [List.any_eq_true]
      refine ⟨rest, ?_, ?_⟩
      · show rest ∈ starSufs sp (c :: rest)
        simp only [starSufs, hsp, if_true]
        exact List.mem_cons_of_mem _ (starSufs_head sp rest)
      · rw [matchesHere_lit]
        exact hrest
  simp only [THIRD_PARTY_STD, rlit, matchesHere_alt, Bool.or_eq_true]
  exact Or.inr (Or.inr (Or.inl hgold))

/-- Claim C1: a sentence containing a recognized third-party standard
marker (in particular one containing Gold Standard anywhere) never
contributes a hit of category no_3rd at its sentence index. -/
theorem C1_no3rd_whitelist (text c : Option (List Char)) (i : Nat) (sent : List Char)
    (hs : (split_sentences text).get? i = some sent)
    (hm : search THIRD_PARTY_STD sent = true ∨
      containsCI ("Gold Standard".data) sent = true) :
    ((scan text c).hits).filter
      (fun h => h.cat == "no_3rd" && h.sent_idx == i) = [] := by
  have h3 : search THIRD_PARTY_STD sent = true := by
    rcases hm with hm | hm
    · exact hm
    · exact contains_gs_search sent hm
  rw [List.filter_eq_nil_iff]
  intro h hh
  have hh' : h ∈ scanHits 0 (split_sentences text) := hh
  obtain ⟨j, sent', hg, hidx, hmem⟩ := scanHits_mem hh'
  obtain ⟨r, hr, hf⟩ := hitsForSentence_mem hmem
  obtain ⟨hcat, _, _, _, hwl⟩ := ruleToHit_some hf
  simp only [Bool.and_eq_true, beq_iff_eq, not_and]
  intro hc1 hc2
  have hj : j = i := by omega
  rw [hj, hs] at hg
  have hsent : sent' = sent := (Option.some.inj hg).symm
  rw [hcat] at hc1
  rw [hc1, hsent, h3] at hwl
  simp at hwl

/-- Witness for C1: a sentence that matches the no_3rd trigger but
mentions Gold Standard produces no no_3rd hit. -/
theorem C1_no3rd_whitelist_witness :
    ((scan
        (some ("We are carbon neutral through offsets certified by Gold Standard.".data))
        none).hits).filter
      (fun h => h.cat == "no_3rd" && h.sent_idx == 0) = [] :=
  C1_no3rd_whitelist
    (some ("We are carbon neutral through offsets certified by Gold Standard.".data))
    none 0
    ("We are carbon neutral through offsets certified by Gold Standard.".data)
    (by decide) (Or.inr (by decide))

/-- Keys of the kept elements of a filterMap form a sublist of the
keys of the table, whenever the function preserves the key. -/
theorem filterMap_map_sublist {α β γ : Type} (f : α → Option β) (k : β → γ)
    (tk : α → γ) (hf : ∀ a b, f a = some b → k b = tk a) :
    ∀ l : List α, ((l.filterMap f).map k).Sublist (l.map tk) := by
  intro l
  induction l with
  | nil => simp
  | cons a l ih =>
    rw [List.filterMap_cons]
    cases hfa : f a with
    | none =>
      simp only [List.map_cons]
      exact ih.cons _
    | some b =>
      simp only [List.map_cons]
      rw [hf a b hfa]
      exact ih.cons₂ _

/-- Within one sentence, hits appear in strictly increasing rule-table
position. -/
theorem chunk_pos_pairwise (sent : List Char) (i : Nat) :
    (hitsForSentence sent i).Pairwise
      (fun a b => rulePos a.rule_id < rulePos b.rule_id) := by
  have hf : ∀ r hh, ruleToHit sent i r = some hh →
      rulePos hh.rule_id = rulePos r.2.2 := by
    intro r hh hfr
    rw [(ruleToHit_some hfr).2.1]
  have hsub := filterMap_map_sublist (ruleToHit sent i) (fun h => rulePos h.rule_id)
    (fun r => rulePos r.2.2) hf RULES
  have heq : RULES.map (fun r => rulePos r.2.2) = [0, 1, 2, 3, 4, 5] := rfl
  rw [heq] at hsub
  have hp : ((hitsForSentence sent i).map (fun h => rulePos h.rule_id)).Pairwise
      (· < ·) :=
    List.Pairwise.sublist hsub (by decide)
  rw [List.pairwise_map] at hp
  exact hp

/-- The flattened hit list is strictly ordered by sentence index, then
rule-table position. -/
theorem scanHits_pairwise :
    ∀ (ss : List (List Char)) (i : Nat), (scanHits i ss).Pairwise hitOrd := by
  intro ss
  induction ss with
  | nil =>
    intro i
    simp [scanHits]
  | cons s ss ih =>
    intro i
    rw [scanHits, List.pairwise_append]
    refine ⟨?_, ih (i + 1), ?_⟩
    · have hc := chunk_pos_pairwise s i
      refine List.Pairwise.imp_of_mem ?_ hc
      intro a b ha hb hr
      exact Or.inr ⟨by rw [hfs_sentIdx ha, hfs_sentIdx hb], hr⟩
    · intro a ha b hb
      have hai : a.sent_idx = i := hfs_sentIdx ha
      obtain ⟨j, sent, _, hbi, _⟩ := scanHits_mem hb
      exact Or.inl (by omega)

/-- Claim C4: the hits of scan are strictly sorted lexicographically
by sentence index and then by the position of the matching rule in the
rule table, and scan is deterministic: the same input yields the same
result. -/
theorem C4_hit_order (text c : Option (List Char)) :
    ((scan text c).hits).Pairwise hitOrd ∧ scan text c = scan text c := by
  constructor
  · exact scanHits_pairwise (split_sentences text) 0
  · rfl

/-- Within one sentence, a given rule id is hit at most once. -/
theorem hfs_count_rule (sent : List Char) (i rid : Nat) :
    ((hitsForSentence sent i).filter (fun h => h.rule_id == rid)).length ≤ 1 := by
  have hf : ∀ r hh, ruleToHit sent i r = some hh → hh.rule_id = r.2.2 :=
    fun r hh hfr => (ruleToHit_some hfr).2.1
  have hsub := filterMap_map_sublist (ruleToHit sent i) (fun h => h.rule_id)
    (fun r => r.2.2) hf RULES
  have heq : RULES.map (fun r => r.2.2) = [901, 102, 402, 303, 202, 302] := rfl
  rw [heq] at hsub
  have h1 : ((hitsForSentence sent i).filter (fun h => h.rule_id == rid)).length
      = ((hitsForSentence sent i).map (fun h => h.rule_id)).count rid := by
    rw [← List.countP_eq_length_filter]
    simp only [List.count, List.countP_map]
    rfl
  rw [h1]
  calc ((hitsForSentence sent i).map (fun h => h.rule_id)).count rid
      ≤ ([901, 102, 402, 303, 202, 302] : List Nat).count rid := hsub.count_le rid
    _ ≤ 1 := List.nodup_iff_count_le_one.mp (by decide) rid

/-- A sentence contributes at most six hits (one per table rule). -/
theorem hfs_len (sent : List Char) (i : Nat) :
    (hitsForSentence sent i).length ≤ 6 := by
  have h1 := List.length_filterMap_le (ruleToHit sent i) RULES
  have h2 : RULES.length = 6 := rfl
  unfold hitsForSentence
  omega

/-- The total number of hits is at most six per sentence. -/
theorem scanHits_len :
    ∀ (ss : List (List Char)) (i : Nat), (scanHits i ss).length ≤ 6 * ss.length := by
  intro ss
  induction ss with
  | nil =>
    intro i
    simp [scanHits]
  | cons s ss ih =>
    intro i
    rw [scanHits, List.length_append]
    have h1 := hfs_len s i
    have h2 := ih (i + 1)
    simp only [List.length_cons]
    omega

/-- Across the whole scan, at most one hit carries a given sentence
index and rule id. -/
theorem scanHits_filter_le_one :
    ∀ (ss : List (List Char)) (i n rid : Nat),
      ((scanHits i ss).filter
        (fun h => h.sent_idx == n && h.rule_id == rid)).length ≤ 1 := by
  intro ss
  induction ss with
  | nil =>
    intro i n rid
    simp [scanHits]
  | cons s ss ih =>
    intro i n rid
    rw [scanHits, List.filter_append, List.length_append]
    by_cases hin : i = n
    · have htail : (scanHits (i + 1) ss).filter
          (fun h => h.sent_idx == n && h.rule_id == rid) = [] := by
        rw [List.filter_eq_nil_iff]
        intro h hh
        obtain ⟨j, sent, _, hidx, _⟩ := scanHits_mem hh
        simp only [Bool.and_eq_true, beq_iff_eq, not_and]
        intro hxn
        omega
      have hchunk : ((hitsForSentence s i).filter
          (fun h => h.sent_idx == n && h.rule_id == rid)).length
          ≤ ((hitsForSentence s i).filter (fun h => h.rule_id == rid)).length := by
        rw [← List.countP_eq_length_filter, ← List.countP_eq_length_filter]
        apply List.countP_mono_left
        intro x hx hpx
        simp only [Bool.and_eq_true] at hpx
        exact hpx.2
      have hone := hfs_count_rule s i rid
      rw [htail]
      simp only [List.length_nil]
      omega
    · have hchunk : (hitsForSentence s i).filter
          (fun h => h.sent_idx == n && h.rule_id == rid) = [] := by
        rw [List.filter_eq_nil_iff]
        intro h hh
        have hid := hfs_sentIdx hh
        simp only [Bool.and_eq_true, beq_iff_eq, not_and]
        intro hxn
        omega
      have htail := ih (i + 1) n rid
      rw [hchunk]
      simp only [List.length_nil]
      omega

/-- Claim C10: each rule contributes at most one hit per sentence, and
the total number of hits is at most six times the number of
sentences. -/
theorem C10_hit_bounds (text c : Option (List Char)) :
    (∀ i rid : Nat,
      (((scan text c).hits).filter
        (fun h => h.sent_idx == i && h.rule_id == rid)).length ≤ 1)
    ∧ ((scan text c).hits).length ≤ 6 * (split_sentences text).length := by
  constructor
  · intro i rid
    exact scanHits_filter_le_one (split_sentences text) 0 i rid
  · exact scanHits_len (split_sentences text) 0

/-- No fragment produced by the splitting scan contains a newline:
newlines always either terminate a whitespace-run delimiter position
or start a newline-run delimiter. -/
theorem splitAux_no_nl :
    ∀ (l : List Char) (st : SplSt),
      (match st with
       | .norm cur _ => ∀ c ∈ cur, c.toNat ≠ 10
       | _ => True) →
      ∀ p ∈ splitAux st l, ∀ c ∈ p, c.toNat ≠ 10 := by
  intro l
  induction l with
  | nil =>
    intro st hst p hp c hc
    cases st with
    | norm cur prev =>
      simp only [splitAux, List.mem_singleton] at hp
      subst hp
      exact hst c (List.mem_reverse.mp hc)
    | skipS =>
      simp only [splitAux, List.mem_singleton] at hp
      subst hp
      simp at hc
    | skipN =>
      simp only [splitAux, List.mem_singleton] at hp
      subst hp
      simp at hc
  | cons ch cs ih =>
    intro st hst p hp c hc
    cases st with
    | norm cur prev =>
      simp only [splitAux] at hp
      split at hp
      · rcases List.mem_cons.mp hp with hp | hp
        · subst hp
          exact hst c (List.mem_reverse.mp hc)
        · exact ih .skipS trivial p hp c hc
      · split at hp
        · rcases List.mem_cons.mp hp with hp | hp
          · subst hp
            exact hst c (List.mem_reverse.mp hc)
          · exact ih .skipN trivial p hp c hc
        · rename_i hb1 hb2
          refine ih (.norm (ch :: cur) (some ch)) ?_ p hp c hc
          intro d hd
          rcases List.mem_cons.mp hd with hd | hd
          · subst hd
            simpa using hb2
          · exact hst d hd
    | skipS =>
      simp only [splitAux] at hp
      split at hp
      · exact ih .skipS trivial p hp c hc
      · rename_i hnsp
        refine ih (.norm [ch] (some ch)) ?_ p hp c hc
        intro d hd
        rcases List.mem_cons.mp hd with hd | hd
        · subst hd
          intro h10
          exact hnsp (by simp [sp, h10])
        · simp at hd
    | skipN =>
      simp only [splitAux] at hp
      split at hp
      · exact ih .skipN trivial p hp c hc
      · rename_i hn
        refine ih (.norm [ch] (some ch)) ?_ p hp c hc
        intro d hd
        rcases List.mem_cons.mp hd with hd | hd
        · subst hd
          simpa using hn
        · simp at hd

/-- Every sentence produced by the splitter is newline-free. -/
theorem split_sentences_no_nl (text : Option (List Char)) :
    ∀ s ∈ split_sentences text, ∀ c ∈ s, c.toNat ≠ 10 := by
  intro s hs c hc
  simp only [split_sentences] at hs
  split at hs
  · simp at hs
  · rw [List.mem_filterMap] at hs
    obtain ⟨p, hp, hf⟩ := hs
    split at hf
    · exact absurd hf (by simp)
    · have hsp := Option.some.inj hf
      have hcp : c ∈ p := by
        rw [← hsp] at hc
        unfold pstrip at hc
        rw [List.mem_reverse] at hc
        have h1 := (List.dropWhile_sublist sp).subset hc
        rw [List.mem_reverse] at h1
        exact (List.dropWhile_sublist sp).subset h1
      exact splitAux_no_nl _ (.norm [] none) (by simp) p hp c hcp

/-- Claim C2: rule 102 (category lack_metrics) fires on a sentence
exactly when a target/goal/objective/commitment word appears in it
without any subsequent year-like token, baseline reference or
reference-year phrase later in the same sentence (stated for every
newline-free string, hence for every sentence the splitter produces);
scan of the sentence Our target is net zero. yields exactly one hit
with category lack_metrics and rule id 102, and scan of Our target is
net zero by 2030. yields zero hits. -/
theorem C2_lack_metrics :
    (∀ s : List Char, (∀ c ∈ s, c.toNat ≠ 10) →
      ruleFires rule102 s = lackMetricsSpec s)
    ∧ (∀ text : Option (List Char), ∀ s ∈ split_sentences text,
      ruleFires rule102 s = lackMetricsSpec s)
    ∧ (scan (some ("Our target is net zero.".data)) none).hits =
        [{ cat := "lack_metrics", rule_id := 102,
           text := "Our target is net zero.".data, sent_idx := 0 }]
    ∧ (scan (some ("Our target is net zero by 2030.".data)) none).hits = [] :=
  ⟨rule102_eq_spec,
   fun text s hs => rule102_eq_spec s (split_sentences_no_nl text s hs),
   by decide, by decide⟩

/-- Witness for C2: the equivalence applied at a concrete newline-free
sentence. -/
theorem C2_lack_metrics_witness :
    ruleFires rule102 ("Our target is net zero.".data) =
      lackMetricsSpec ("Our target is net zero.".data) :=
  C2_lack_metrics.1 ("Our target is net zero.".data) (by decide)
